import Mathlib

/-!
Verification development for the gmail-invoice-tagger repository.

The repository contains two variant implementations of the same pipeline:
`main.py` (service-account auth, per-call error recovery) and `tagger.py`
(OAuth flow, no error recovery).  Both are shallowly embedded below: pure
helpers (base64url decoding, UTF-8 decoding, classification) become Lean
functions; the two external services (Gmail, the generative model) are
modelled by an explicit environment of call outcomes, and the orchestrator
becomes a state-passing run over an explicit Gmail state.  Uncaught Python
exceptions are modelled with `Except`.
-/

deriving instance DecidableEq for Except

namespace Tagging

/-! ### Base64url decoding (Python `base64.urlsafe_b64decode`)

`urlsafe_b64decode` translates `-` to `+` and `_` to `/` and then applies the
standard-alphabet decoder `binascii.a2b_base64` in its default non-strict
mode: characters outside the base64 alphabet (and `=`) are discarded, the
remaining stream is consumed in groups of four, a `=` ends the data
characters of its group, and a trailing incomplete group raises
`binascii.Error`.  Decoding failures are represented by `none`. -/

/-- Value of a character in the standard base64 alphabet, `none` otherwise. -/
def b64Index (c : Char) : Option Nat :=
  if 65 ≤ c.toNat ∧ c.toNat ≤ 90 then some (c.toNat - 65)
  else if 97 ≤ c.toNat ∧ c.toNat ≤ 122 then some (c.toNat - 97 + 26)
  else if 48 ≤ c.toNat ∧ c.toNat ≤ 57 then some (c.toNat - 48 + 52)
  else if c = '+' then some 62
  else if c = '/' then some 63
  else none

/-- The `-`→`+`, `_`→`/` translation done by `urlsafe_b64decode`. -/
def urlsafeTranslate (c : Char) : Char :=
  if c = '-' then '+' else if c = '_' then '/' else c

/-- Bytes produced by one base64 group: 4, 3 or 2 data characters give
3, 2 or 1 bytes respectively (6-bit values packed big-endian). -/
def quadBytes : List Nat → List Nat
  | [a, b, c, d] => [a * 4 + b / 16, (b % 16) * 16 + c / 4, (c % 4) * 64 + d]
  | [a, b, c] => [a * 4 + b / 16, (b % 16) * 16 + c / 4]
  | [a, b] => [a * 4 + b / 16]
  | _ => []

/-- Decode one group of four characters (data characters then optional
padding).  Groups with fewer than two data characters before padding, or
with data after padding, are rejected. -/
def decodeQuad (q : List Char) : Option (List Nat) :=
  let dataChars := q.takeWhile (fun c => c ≠ '=')
  let padChars := q.drop dataChars.length
  if padChars.all (fun c => c = '=') then
    if dataChars.length = 0 then
      if q.length = 4 then some [] else none
    else if dataChars.length ≥ 2 then
      (dataChars.mapM b64Index).map quadBytes
    else none
  else none

/-- Decode a filtered character stream group by group; a trailing
incomplete group is an error (Python: incorrect padding). -/
def b64Groups : List Char → Option (List Nat)
  | [] => some []
  | a :: b :: c :: d :: rest => do
      let bytes ← decodeQuad [a, b, c, d]
      let more ← b64Groups rest
      pure (bytes ++ more)
  | _ => none

/-- Python `base64.urlsafe_b64decode` on a text payload, yielding bytes;
`none` models a raised `binascii.Error`. -/
def urlsafe_b64decode (s : String) : Option (List Nat) :=
  b64Groups ((s.data.map urlsafeTranslate).filter
    (fun c => (b64Index c).isSome || c = '='))

/-! ### UTF-8 decoding (Python `bytes.decode("utf-8")`, strict) -/

/-- Is a byte a UTF-8 continuation byte in the given inclusive range? -/
def contByte (lo hi b : Nat) : Bool := lo ≤ b ∧ b ≤ hi

/-- Strict UTF-8 decoder; `none` models a raised `UnicodeDecodeError`. -/
def utf8Decode : List Nat → Option (List Char)
  | [] => some []
  | b :: bs =>
    if b < 0x80 then
      (utf8Decode bs).map (fun cs => Char.ofNat b :: cs)
    else if b < 0xC2 then none
    else if b < 0xE0 then
      match bs with
      | b1 :: bs2 =>
        if contByte 0x80 0xBF b1 then
          (utf8Decode bs2).map (fun cs =>
            Char.ofNat ((b - 0xC0) * 64 + (b1 - 0x80)) :: cs)
        else none
      | [] => none
    else if b < 0xF0 then
      match bs with
      | b1 :: b2 :: bs3 =>
        let lo1 := if b = 0xE0 then 0xA0 else 0x80
        let hi1 := if b = 0xED then 0x9F else 0xBF
        if contByte lo1 hi1 b1 ∧ contByte 0x80 0xBF b2 then
          (utf8Decode bs3).map (fun cs =>
            Char.ofNat ((b - 0xE0) * 4096 + (b1 - 0x80) * 64 + (b2 - 0x80)) :: cs)
        else none
      | _ => none
    else if b < 0xF5 then
      match bs with
      | b1 :: b2 :: b3 :: bs4 =>
        let lo1 := if b = 0xF0 then 0x90 else 0x80
        let hi1 := if b = 0xF4 then 0x8F else 0xBF
        if contByte lo1 hi1 b1 ∧ contByte 0x80 0xBF b2 ∧ contByte 0x80 0xBF b3 then
          (utf8Decode bs4).map (fun cs =>
            Char.ofNat ((b - 0xF0) * 262144 + (b1 - 0x80) * 4096 +
              (b2 - 0x80) * 64 + (b3 - 0x80)) :: cs)
        else none
      | _ => none
    else none

/-- Composite decoding `base64.urlsafe_b64decode(d).decode("utf-8")`
applied by both implementations to body data; `none` models an uncaught
exception from either step. -/
def decodeText (d : String) : Option String :=
  (urlsafe_b64decode d).bind (fun bs => (utf8Decode bs).map String.mk)

/-! ### Data model -/

/-- The fixed category list (`CATEGORIES` in both files). -/
def CATEGORIES : List String := ["Orders", "Invoices", "Other"]

/-- One MIME part of a message payload (`payload.parts[i]`), keeping the
fields the code reads: `mimeType` and `body.data` (main.py defaults a
missing `data` to the empty string). -/
structure Part where
  mimeType : String
  data : String
  deriving DecidableEq, Repr

/-- A message payload: `parts` (empty for single-part messages, making
`payload.get("parts", [])` falsy) and the top-level `body.data`. -/
structure MsgPayload where
  parts : List Part
  bodyData : Option String
  deriving DecidableEq, Repr

/-- A Gmail message: opaque id, payload, and its current label ids
(the unread flag is the system label id `"UNREAD"`). -/
structure Message where
  id : String
  payload : MsgPayload
  labels : List String
  deriving DecidableEq, Repr

/-- A Gmail label: user-visible name and service-assigned id. -/
structure Label where
  name : String
  id : String
  deriving DecidableEq, Repr

/-- The mail service state seen through the API: the label directory and
the messages. -/
structure GmailState where
  labels : List Label
  messages : List Message
  deriving DecidableEq, Repr

/-- Externally visible events of a run: a print to stdout (tagged with the
emitting function), one attempted `messages().modify` call, or one
`generate_content` call to the model. -/
inductive Effect where
  | print (src : String) (line : String)
  | modifyCall (msgId : String) (labelId : String)
  | modelCall (prompt : String)
  deriving DecidableEq, Repr

/-- Outcomes of the external calls of one run: which service calls raise
`HttpError`, what the model answers for each prompt (or that the call
raises), and which id the service assigns to a newly created label. -/
structure Env where
  fetchErr : Bool
  getMsgErr : String → Bool
  modelResp : String → Except Unit String
  listLabelsErr : Bool
  createErr : Bool
  freshId : String → String
  modifyErr : String → Bool

namespace Main

/-! ### `main.py` — pipeline functions

Authentication (`gmail_authenticate`) is the precondition producing the
service handle and is not modelled; a run starts with an authenticated
session over a `GmailState`.  Each function takes the `Env` of external
call outcomes.  A Lean `Except.error ()` marks an uncaught Python
exception (only decoding can raise one in `main.py`). -/

/-- Embedding of `fetch_unread_message_ids` (main.py lines 86–103): list up to 10 unread
messages; on `HttpError` print and return the empty list. -/
def fetch_unread_message_ids (env : Env) (s : GmailState) :
    List String × List Effect :=
  if env.fetchErr then
    ([], [Effect.print "fetch_unread_message_ids"
      "An error occurred while fetching messages"])
  else
    (((s.messages.filter (fun m => m.labels.contains "UNREAD")).take 10).map
      Message.id, [])

/-- Body extraction of `get_message_text` (main.py lines 121–134) for the
multipart branch: concatenate the decoded data of the parts whose
`mimeType` equals `"text/plain"`, in order; a failing decode raises. -/
def extractParts : List Part → Except Unit String
  | [] => Except.ok ""
  | p :: rest =>
    if p.mimeType = "text/plain" then
      match decodeText p.data with
      | none => Except.error ()
      | some t =>
        match extractParts rest with
        | Except.error e => Except.error e
        | Except.ok r => Except.ok (t ++ r)
    else extractParts rest

/-- Embedding of the body of `get_message_text` on a fetched payload (main.py lines 121–134):
single-part messages (no `parts`) decode `payload.body.data` once if
present; multipart messages go through `extractParts`. -/
def extractFromPayload (p : MsgPayload) : Except Unit String :=
  if p.parts.isEmpty then
    match p.bodyData with
    | none => Except.ok ""
    | some d =>
      match decodeText d with
      | none => Except.error ()
      | some t => Except.ok t
  else extractParts p.parts

/-- Embedding of `get_message_text` (main.py lines 105–137): an `HttpError` on the get
call (including an unknown id) is caught and yields the empty string;
decoding errors are not caught and propagate. -/
def get_message_text (env : Env) (s : GmailState) (msg_id : String) :
    Except Unit String :=
  if env.getMsgErr msg_id then Except.ok ""
  else
    match s.messages.find? (fun m => m.id = msg_id) with
    | none => Except.ok ""
    | some m => extractFromPayload m.payload

/-- The prompt built by `classify_email` (main.py lines 206–209). -/
def classifyPrompt (text : String) : String :=
  "Classify this email into one of the following categories: " ++
    "Orders, Invoices, Other. Email text: \x27" ++ text ++ "\x27. "

/-- Embedding of `classify_email` (main.py lines 193–229): empty text short-circuits to
`"Other"` with no model call; otherwise the raw response text is compared
directly against `CATEGORIES` (no JSON parsing), and any exception from
the model call yields `"Other"`.  Returns the category together with the
effects (the attempted model call and any error print). -/
def classify_email (text : String) (resp : Except Unit String) :
    String × List Effect :=
  if text = "" then ("Other", [])
  else
    let call := Effect.modelCall (classifyPrompt text)
    match resp with
    | Except.error _ =>
      ("Other", [call, Effect.print "classify_email"
        "An error occurred during AI classification"])
    | Except.ok category =>
      if CATEGORIES.contains category then (category, [call])
      else ("Other", [call])

/-- Embedding of `get_or_create_label` (main.py lines 139–170): return the id of the
first label whose name matches, else create the label (the service assigns
`env.freshId label_name`); an `HttpError` on either call is caught and the
empty string is returned as sentinel. -/
def get_or_create_label (env : Env) (s : GmailState) (label_name : String) :
    String × GmailState × List Effect :=
  if env.listLabelsErr then
    ("", s, [Effect.print "get_or_create_label"
      "An error occurred while processing labels"])
  else
    match s.labels.find? (fun l => l.name = label_name) with
    | some l => (l.id, s, [])
    | none =>
      if env.createErr then
        ("", s, [Effect.print "get_or_create_label"
          "An error occurred while processing labels"])
      else
        let newId := env.freshId label_name
        (newId, { s with labels := s.labels ++ [⟨label_name, newId⟩] }, [])

/-- Effect of a successful `messages().modify` call with body
`addLabelIds [label_id], removeLabelIds ["UNREAD"]` on a message's label
set (Gmail label sets are sets: adding a present label is a no-op). -/
def applyMods (ls : List String) (label_id : String) : List String :=
  let kept := ls.filter (fun x => x ≠ "UNREAD")
  if kept.contains label_id then kept else kept ++ [label_id]

/-- The service state after a successful modify call on `msg_id`. -/
def modifyState (s : GmailState) (msg_id label_id : String) : GmailState :=
  { s with
    messages := s.messages.map (fun m =>
      if m.id = msg_id then { m with labels := applyMods m.labels label_id }
      else m) }

/-- Embedding of `apply_label` (main.py lines 172–187): one combined modify call; an
`HttpError` is caught and only printed, so the function gives its caller
no success indication either way. -/
def apply_label (env : Env) (s : GmailState) (msg_id label_id : String) :
    GmailState × List Effect :=
  let call := Effect.modifyCall msg_id label_id
  if env.modifyErr msg_id then
    (s, [call, Effect.print "apply_label"
      "An error occurred while applying the label"])
  else (modifyState s msg_id label_id, [call])

/-- One iteration of the `for msg_summary in messages` loop of `main`
(main.py lines 252–266).  `Except.error ()` is an uncaught exception
(a decoding failure inside `get_message_text`). -/
def stepMessage (env : Env) (s : GmailState) (tr : List Effect)
    (msg_id : String) : Except Unit (GmailState × List Effect) :=
  match get_message_text env s msg_id with
  | Except.error e => Except.error e
  | Except.ok text =>
    if text = "" then
      Except.ok (s, tr ++ [Effect.print "main"
        ("Msg " ++ msg_id ++ ": Could not retrieve text, skipping.")])
    else
      let c := classify_email text (env.modelResp (classifyPrompt text))
      let tr := tr ++ c.2 ++ [Effect.print "main"
        ("Msg " ++ msg_id ++ ": Classified as \x27" ++ c.1 ++ "\x27")]
      let r := get_or_create_label env s c.1
      let tr := tr ++ r.2.2
      if r.1 ≠ "" then
        let a := apply_label env r.2.1 msg_id r.1
        Except.ok (a.1, tr ++ a.2 ++ [Effect.print "main"
          ("Msg " ++ msg_id ++ ": Successfully labeled and marked as read.")])
      else Except.ok (r.2.1, tr)

/-- The result of a run: final service state, emitted effects, and whether
the process died on an uncaught exception. -/
structure RunResult where
  state : GmailState
  trace : List Effect
  crashed : Bool
  deriving DecidableEq, Repr

/-- The message loop of `main`: process the fetched ids in order; an
uncaught exception terminates the whole run at that point. -/
def runMsgs (env : Env) : GmailState → List Effect → List String → RunResult
  | s, tr, [] => ⟨s, tr, false⟩
  | s, tr, msg_id :: rest =>
    match stepMessage env s tr msg_id with
    | Except.error _ => ⟨s, tr, true⟩
    | Except.ok (s1, tr1) => runMsgs env s1 tr1 rest

/-- Embedding of `main` (main.py lines 235–268), starting after successful
authentication: fetch the unread ids, end gracefully when there are none,
else process each id in order. -/
def main (env : Env) (s0 : GmailState) : RunResult :=
  let tr0 := [Effect.print "main" "Starting email classification process..."]
  let f := fetch_unread_message_ids env s0
  if f.1.isEmpty then
    ⟨s0, tr0 ++ f.2 ++ [Effect.print "main" "No unread messages found."], false⟩
  else
    let tr1 := tr0 ++ f.2 ++ [Effect.print "main"
      ("Found " ++ toString f.1.length ++ " unread emails. Processing...")]
    let r := runMsgs env s0 tr1 f.1
    if r.crashed then r
    else ⟨r.state, r.trace ++ [Effect.print "main" "Processing complete."], false⟩

end Main

namespace Tagger

/-! ### `tagger.py` — variant implementation

The tagger variant wraps no call in `try`/`except` apart from the
`json.JSONDecodeError` handler inside `classify_email`, has no empty-text
short-circuit, and reads only `payload.parts` (no single-part branch). -/

/-- Embedding of `get_message_text` (tagger.py lines 41–49): concatenate the decoded
`text/plain` parts; a message without a `parts` list yields the empty
string because the loop body never runs. -/
def get_message_text (p : MsgPayload) : Except Unit String :=
  Main.extractParts p.parts

/-- The prompt built by tagger.py lines 53–64 (as evidently intended: the
committed file splits this string literal over raw newlines). -/
def taggerPrompt (text : String) : String :=
  "Classify this email into one of these categories: Orders, Invoices, " ++
    "Other.\n\nEmail:\n" ++ text ++
    "\n\nRespond with a single JSON object like \x7b\"category\": \"...\"\x7d."

/-- Embedding of `classify_email` (tagger.py lines 52–76).  `chat` is the outcome of the
chat call on a given prompt (its failure is not caught and propagates).
`parse` abstracts `json.loads(content)` followed by `out.get("category")`:
`Except.error ()` is a raised `json.JSONDecodeError`, `Except.ok v` is a
parsed object with `v` its `category` field (if any).  Returns the
category and the number of model calls performed. -/
def classify_email (parse : String → Except Unit (Option String))
    (chat : String → Except Unit String) (text : String) :
    Except Unit (String × Nat) :=
  match chat (taggerPrompt text) with
  | Except.error e => Except.error e
  | Except.ok content =>
    match parse content with
    | Except.error _ => Except.ok ("Other", 1)
    | Except.ok cat =>
      match cat with
      | some c => if CATEGORIES.contains c then Except.ok (c, 1)
                  else Except.ok ("Other", 1)
      | none => Except.ok ("Other", 1)

/-- Model of `json.loads` followed by `.get("category")` on an input that is not
valid JSON: a raised `json.JSONDecodeError`. -/
def parseNotJson : String → Except Unit (Option String) :=
  fun _ => Except.error ()

end Tagger

/-! ### Helper lemmas -/

/-- Unfolding of membership testing against the fixed category list. -/
lemma contains_CATEGORIES (s : String) :
    CATEGORIES.contains s = true ↔ (s = "Orders" ∨ s = "Invoices" ∨ s = "Other") := by
  rw [show CATEGORIES.contains s = CATEGORIES.elem s from rfl, List.elem_iff]
  simp [CATEGORIES]

/-- main.py's classifier only ever produces members of the category list. -/
lemma classify_email_mem (text : String) (resp : Except Unit String) :
    (Main.classify_email text resp).1 ∈ CATEGORIES := by
  unfold Main.classify_email
  by_cases ht : text = ""
  · simp [ht, CATEGORIES]
  · rw [if_neg ht]
    cases resp with
    | error e => simp [CATEGORIES]
    | ok category =>
      by_cases hc : CATEGORIES.contains category = true
      · have h3 := (contains_CATEGORIES category).1 hc
        simp only [hc, if_true]
        rcases h3 with h | h | h <;> simp [h, CATEGORIES]
      · rw [contains_CATEGORIES] at hc
        simp [hc, CATEGORIES]

/-- A model response of the instructed JSON-object shape, with the given
text as the value of its `category` field. -/
def jsonObjectResponse (c : String) : String :=
  "\x7b\"category\": \"" ++ c ++ "\"\x7d"

/-- A response of the JSON-object shape starts with a brace, so it is
never a member of the category list. -/
lemma jsonObjectResponse_not_mem (c : String) :
    jsonObjectResponse c ∉ CATEGORIES := by
  intro hm
  simp only [CATEGORIES, List.mem_cons, List.not_mem_nil, or_false] at hm
  rcases hm with h | h | h <;>
    · have h3 := congrArg (fun s => s.data.head?) h
      simp [jsonObjectResponse] at h3

/-! ### Claims C2, C3, C4 — the classifier -/

/-- C2 (amended): `main.py`'s classifier is total — for every input text
and every outcome of the model call (including a raised exception) it
returns exactly one member of the fixed category set and never raises. -/
theorem claim_classifier_total_main (text : String) (resp : Except Unit String) :
    (Main.classify_email text resp).1 ∈ CATEGORIES :=
  classify_email_mem text resp

/-- C2 counterexample: `tagger.py`'s classifier is not total — when the
model call itself fails, the exception propagates out of
`classify_email` instead of yielding a category. -/
theorem counterex_tagger_classifier_raises :
    Tagger.classify_email Tagger.parseNotJson (fun _ => Except.error ()) "hello"
      = Except.error () := rfl

/-- C3 (amended): in `main.py` every model response other than the exact
raw strings `"Orders"` and `"Invoices"` — in particular every response of
the instructed JSON shape, JSON missing the field, or out-of-set JSON —
makes the classifier return `"Other"`. -/
theorem claim_malformed_response_fallback_main (text r : String)
    (h1 : r ≠ "Orders") (h2 : r ≠ "Invoices") :
    (Main.classify_email text (Except.ok r)).1 = "Other" := by
  unfold Main.classify_email
  by_cases ht : text = "" <;> simp [ht]
  by_cases hc : CATEGORIES.contains r = true
  · rcases (contains_CATEGORIES r).1 hc with h | h | h
    · exact absurd h h1
    · exact absurd h h2
    · simp [hc, h]
  · simp [Bool.not_eq_true] at hc
    simp [hc]

/-- Witness for C3: a non-JSON response such as `"banana"` yields
`"Other"`. -/
theorem claim_malformed_response_fallback_main_witness :
    ("banana" ≠ "Orders" ∧ "banana" ≠ "Invoices") ∧
      (Main.classify_email "pay me" (Except.ok "banana")).1 = "Other" :=
  ⟨by decide, claim_malformed_response_fallback_main "pay me" "banana"
    (by decide) (by decide)⟩

/-- C3 counterexample: the raw response `"Orders"` is not JSON, yet
`main.py`'s classifier returns `"Orders"`, not `"Other"` — the claim that
every non-JSON response yields `"Other"` is false on `main.py`. -/
theorem counterex_main_nonjson_orders :
    (Main.classify_email "pay invoice 123" (Except.ok "Orders")).1 = "Orders"
      ∧ "Orders" ≠ "Other" := by decide

/-- C4 (amended): `main.py`'s classifier short-circuits the empty input to
`"Other"` with no effects at all — in particular no model call. -/
theorem claim_empty_text_no_model_call_main (resp : Except Unit String) :
    Main.classify_email "" resp = ("Other", []) := rfl

/-- C4 counterexample: `tagger.py`'s classifier has no empty-text
short-circuit — on the empty string it still performs one model call
(and with a well-formed model response it can even return a category
other than `"Other"`). -/
theorem counterex_tagger_empty_text_calls_model :
    Tagger.classify_email Tagger.parseNotJson (fun _ => Except.ok "x") ""
      = Except.ok ("Other", 1) := rfl

/-! ### Claims C5, C6 — text extraction -/

/-- C5 (amended): `main.py`'s `get_message_text` decodes the base64url
body payload of a single-part message (one with no parts list) once and
returns the decoded text. -/
theorem claim_single_part_decode_main (d t : String)
    (h : decodeText d = some t) :
    Main.extractFromPayload ⟨[], some d⟩ = Except.ok t := by
  simp [Main.extractFromPayload, h]

/-- Witness for C5: the fixture body data `"SGVsbG8gV29ybGQ="` decodes to
`"Hello World"`. -/
theorem claim_single_part_decode_main_witness :
    decodeText "SGVsbG8gV29ybGQ=" = some "Hello World" ∧
      Main.extractFromPayload ⟨[], some "SGVsbG8gV29ybGQ="⟩
        = Except.ok "Hello World" :=
  ⟨by decide, claim_single_part_decode_main "SGVsbG8gV29ybGQ=" "Hello World"
    (by decide)⟩

/-- C5 counterexample: `tagger.py`'s `get_message_text` only iterates the
parts list, so on the single-part fixture it returns the empty string,
not `"Hello World"`. -/
theorem counterex_tagger_single_part_empty :
    Tagger.get_message_text ⟨[], some "SGVsbG8gV29ybGQ="⟩ = Except.ok ""
      ∧ Except.ok "" ≠ (Except.ok "Hello World" : Except Unit String) :=
  ⟨rfl, by simp⟩

/-- Decode the body data of every part in a list, all-or-nothing. -/
def decodeAll : List Part → Option (List String)
  | [] => some []
  | p :: ps =>
    match decodeText p.data, decodeAll ps with
    | some t, some ts => some (t :: ts)
    | _, _ => none

/-- The extraction result described by the spec: decode exactly the parts
whose media type is exactly `"text/plain"` and concatenate the decoded
texts in service order. -/
def plainConcat (parts : List Part) : Option String :=
  (decodeAll (parts.filter (fun p => p.mimeType = "text/plain"))).map
    (fun ts => ts.foldr (· ++ ·) "")

/-- C6: on every multi-part message, `main.py`'s extraction loop computes
exactly the spec's filter-decode-concatenate result (raising only when a
plain-text part fails to decode); on the fixture
`[text/plain "SGVsbG8=", text/html …]` it returns exactly `"Hello"`. -/
theorem claim_multipart_plain_concat :
    (∀ parts : List Part,
      Main.extractParts parts =
        match plainConcat parts with
        | none => Except.error ()
        | some t => Except.ok t) ∧
    Main.extractFromPayload
        ⟨[⟨"text/plain", "SGVsbG8="⟩, ⟨"text/html", "PGh0bWw+"⟩], none⟩
      = Except.ok "Hello" := by
  constructor
  · intro parts
    induction parts with
    | nil => rfl
    | cons p rest ih =>
      by_cases hm : p.mimeType = "text/plain"
      · simp only [Main.extractParts, if_pos hm, plainConcat, List.filter_cons,
          decide_eq_true_eq, if_pos hm, decodeAll]
        cases hd : decodeText p.data with
        | none => simp
        | some t =>
          rw [ih]
          simp only [plainConcat]
          cases hq : decodeAll (rest.filter (fun p =>
              decide (p.mimeType = "text/plain"))) with
          | none => simp
          | some ts => simp [List.foldr_cons]
      · simp only [Main.extractParts, if_neg hm, plainConcat, List.filter_cons,
          decide_eq_true_eq, if_neg hm]
        exact ih
  · decide

/-! ### Claim C9 — main.py compares the raw response, no JSON parsing -/

/-- C9: `main.py`'s classifier compares the raw response text against the
category list: a category other than `"Other"` comes back only when the
raw response is character-for-character `"Orders"` or `"Invoices"`, and
every response of the instructed JSON-object format — whatever category
it names — yields `"Other"`. -/
theorem claim_raw_comparison_no_json :
    (∀ text r : String, (Main.classify_email text (Except.ok r)).1 ≠ "Other" →
      r = "Orders" ∨ r = "Invoices") ∧
    (∀ text c : String,
      (Main.classify_email text (Except.ok (jsonObjectResponse c))).1 = "Other") := by
  constructor
  · intro text r h
    by_cases ht : text = ""
    · exact absurd (by simp [Main.classify_email, ht]) h
    · unfold Main.classify_email at h
      rw [if_neg ht] at h
      by_cases hc : CATEGORIES.contains r = true
      · rcases (contains_CATEGORIES r).1 hc with h2 | h2 | h2
        · exact Or.inl h2
        · exact Or.inr h2
        · exact absurd (by simp [hc, h2]) h
      · rw [contains_CATEGORIES] at hc
        exact absurd (by simp [CATEGORIES, hc]) h
  · intro text c
    by_cases ht : text = ""
    · simp [Main.classify_email, ht]
    · unfold Main.classify_email
      rw [if_neg ht]
      simp [jsonObjectResponse_not_mem c]

/-- Witness for C9: the raw response `"Orders"` is the only path to a
non-`"Other"` result, and the instructed-format response naming
`"Orders"` still yields `"Other"`. -/
theorem claim_raw_comparison_no_json_witness :
    ((Main.classify_email "body" (Except.ok "Orders")).1 ≠ "Other" ∧
      ("Orders" = "Orders" ∨ "Orders" = "Invoices")) ∧
    (Main.classify_email "body" (Except.ok (jsonObjectResponse "Orders"))).1
      = "Other" :=
  ⟨⟨by decide, claim_raw_comparison_no_json.1 "body" "Orders" (by decide)⟩,
    claim_raw_comparison_no_json.2 "body" "Orders"⟩

/-! ### Claim C10 — the mutation outcome is invisible to the orchestrator -/

/-- Events the orchestrator itself is responsible for: its own prints, the
attempted mutations, the model calls — everything except the diagnostics
printed inside the callees' exception handlers. -/
def isOrchestratorEvent : Effect → Bool
  | Effect.print src _ => src == "main"
  | Effect.modifyCall _ _ => true
  | Effect.modelCall _ => true

/-- The orchestrator-visible part of a trace. -/
def orchestratorView (tr : List Effect) : List Effect :=
  tr.filter isOrchestratorEvent

/-- Concrete fixtures shared by witnesses below: an environment where all
service calls succeed and the model answers `"Invoices"`. -/
def envAllOk : Env :=
  { fetchErr := false, getMsgErr := fun _ => false,
    modelResp := fun _ => Except.ok "Invoices",
    listLabelsErr := false, createErr := false,
    freshId := fun _ => "L9", modifyErr := fun _ => false }

/-- A single-part unread message whose body decodes to `"Hello World"`. -/
def msgHello : Message := ⟨"m1", ⟨[], some "SGVsbG8gV29ybGQ="⟩, ["UNREAD"]⟩

/-- A mailbox with one unread message and an existing `Invoices` label. -/
def stateHello : GmailState := ⟨[⟨"Invoices", "L1"⟩], [msgHello]⟩

/-- Overriding the modify outcomes leaves `get_message_text` unchanged. -/
lemma get_env_modifyErr (env : Env) (f : String → Bool) (s : GmailState)
    (mid : String) :
    Main.get_message_text { env with modifyErr := f } s mid
      = Main.get_message_text env s mid := rfl

/-- Overriding the modify outcomes leaves `get_or_create_label` unchanged. -/
lemma label_env_modifyErr (env : Env) (f : String → Bool) (s : GmailState)
    (n : String) :
    Main.get_or_create_label { env with modifyErr := f } s n
      = Main.get_or_create_label env s n := rfl

/-- Overriding the modify outcomes leaves the model oracle unchanged. -/
lemma modelResp_env_modifyErr (env : Env) (f : String → Bool) :
    ({ env with modifyErr := f } : Env).modelResp = env.modelResp := rfl

/-- C10: `apply_label` gives `main` no success indication, so the
orchestrator-visible behaviour of a message's processing step — including
the `"Successfully labeled and marked as read."` print — is identical
whether every modify call fails or every modify call succeeds; concretely,
a run whose modify call fails still prints the success line while leaving
the message unread. -/
theorem claim_mutation_outcome_invisible :
    (∀ (env : Env) (f g : String → Bool) (s : GmailState) (tr : List Effect)
        (msg_id : String),
      (Main.stepMessage { env with modifyErr := f } s tr msg_id).map
          (fun r => orchestratorView r.2) =
        (Main.stepMessage { env with modifyErr := g } s tr msg_id).map
          (fun r => orchestratorView r.2)) ∧
    (Effect.print "main" "Msg m1: Successfully labeled and marked as read."
        ∈ (Main.main { envAllOk with modifyErr := fun _ => true } stateHello).trace
      ∧ (Main.main { envAllOk with modifyErr := fun _ => true } stateHello).state
          = stateHello) := by
  constructor
  · intro env f g s tr msg_id
    unfold Main.stepMessage
    simp only [get_env_modifyErr, modelResp_env_modifyErr, label_env_modifyErr]
    cases h : Main.get_message_text env s msg_id with
    | error e => rfl
    | ok text =>
      by_cases ht : text = ""
      · simp [ht]
      · simp only [ht, if_neg ht]
        by_cases hl : (Main.get_or_create_label env s
            (Main.classify_email text
              (env.modelResp (Main.classifyPrompt text))).1).1 = ""
        · simp only [hl, if_neg (by simp : ¬("" ≠ ""))]
        · simp only [if_pos hl]
          unfold Main.apply_label
          by_cases hf : f msg_id = true <;> by_cases hg : g msg_id = true <;>
            simp [hf, hg, orchestratorView, isOrchestratorEvent,
              List.filter_append, List.filter_cons, Except.map]
  · exact ⟨by decide, by decide⟩

/-! ### Claim C7 — no mutation with the empty sentinel label id -/

/-- The classifier emits no mutation attempts. -/
lemma classify_no_modifyCall (t : String) (resp : Except Unit String)
    (a b : String) :
    Effect.modifyCall a b ∉ (Main.classify_email t resp).2 := by
  unfold Main.classify_email
  by_cases ht : t = ""
  · simp [ht]
  · rw [if_neg ht]
    cases resp with
    | error e => simp
    | ok category =>
      dsimp only
      split <;> simp

/-- Label resolution emits no mutation attempts. -/
lemma label_no_modifyCall (env : Env) (s : GmailState) (n a b : String) :
    Effect.modifyCall a b ∉ (Main.get_or_create_label env s n).2.2 := by
  unfold Main.get_or_create_label
  by_cases hl : env.listLabelsErr = true
  · simp [hl]
  · rw [if_neg hl]
    cases hf : s.labels.find? (fun l => l.name = n) with
    | some l => simp
    | none =>
      by_cases hc : env.createErr = true <;> simp [hc]

/-- The only mutation attempt `apply_label` emits carries its own
arguments. -/
lemma apply_label_modifyCall (env : Env) (s : GmailState)
    (mid lid a b : String)
    (hin : Effect.modifyCall a b ∈ (Main.apply_label env s mid lid).2) :
    a = mid ∧ b = lid := by
  unfold Main.apply_label at hin
  by_cases hm : env.modifyErr mid = true <;> simp [hm] at hin <;>
    exact ⟨hin.1, hin.2⟩

/-- The fetch stage emits no mutation attempts. -/
lemma fetch_no_modifyCall (env : Env) (s : GmailState) (a b : String) :
    Effect.modifyCall a b ∉ (Main.fetch_unread_message_ids env s).2 := by
  unfold Main.fetch_unread_message_ids
  by_cases hf : env.fetchErr = true <;> simp [hf]

/-- Every mutation attempt a message step adds to the trace carries a
non-empty label id (the `if label_id:` guard in `main`). -/
lemma stepMessage_modifyCall (env : Env) (s : GmailState) (tr : List Effect)
    (mid : String) (s1 : GmailState) (tr1 : List Effect)
    (hstep : Main.stepMessage env s tr mid = Except.ok (s1, tr1))
    (a b : String) (hin : Effect.modifyCall a b ∈ tr1) :
    Effect.modifyCall a b ∈ tr ∨ b ≠ "" := by
  unfold Main.stepMessage at hstep
  split at hstep
  · exact absurd hstep (by simp)
  · rename_i text heq
    dsimp only at hstep
    split at hstep
    · injection hstep with h9
      injection h9 with h10 h11
      subst h11
      rcases List.mem_append.1 hin with h2 | h2
      · exact Or.inl h2
      · simp at h2
    · split at hstep
      · rename_i hl
        injection hstep with h9
        injection h9 with h10 h11
        subst h11
        rcases List.mem_append.1 hin with h2 | h2
        · rcases List.mem_append.1 h2 with h3 | h3
          · rcases List.mem_append.1 h3 with h4 | h4
            · rcases List.mem_append.1 h4 with h5 | h5
              · rcases List.mem_append.1 h5 with h6 | h6
                · exact Or.inl h6
                · exact absurd h6 (classify_no_modifyCall _ _ a b)
              · simp at h5
            · exact absurd h4 (label_no_modifyCall env s _ a b)
          · exact Or.inr ((apply_label_modifyCall _ _ _ _ a b h3).2 ▸ hl)
        · simp at h2
      · injection hstep with h9
        injection h9 with h10 h11
        subst h11
        rcases List.mem_append.1 hin with h2 | h2
        · rcases List.mem_append.1 h2 with h3 | h3
          · rcases List.mem_append.1 h3 with h4 | h4
            · exact Or.inl h4
            · exact absurd h4 (classify_no_modifyCall _ _ a b)
          · simp at h3
        · exact absurd h2 (label_no_modifyCall env s _ a b)

/-- The message loop preserves the guard on mutation attempts. -/
lemma runMsgs_modifyCall (env : Env) :
    ∀ (ids : List String) (s : GmailState) (tr : List Effect),
    (∀ a b, Effect.modifyCall a b ∈ tr → b ≠ "") →
    ∀ a b, Effect.modifyCall a b ∈ (Main.runMsgs env s tr ids).trace → b ≠ "" := by
  intro ids
  induction ids with
  | nil => intro s tr htr a b hin; exact htr a b hin
  | cons mid rest ih =>
    intro s tr htr a b hin
    unfold Main.runMsgs at hin
    cases hstep : Main.stepMessage env s tr mid with
    | error e => rw [hstep] at hin; exact htr a b hin
    | ok p =>
      rw [hstep] at hin
      refine ih p.1 p.2 (fun a2 b2 hin2 => ?_) a b hin
      rcases stepMessage_modifyCall env s tr mid p.1 p.2 (by rw [hstep]) a2 b2
          hin2 with h2 | h2
      · exact htr a2 b2 h2
      · exact h2

/-- C7: in every run, every attempted mutation (`messages().modify`)
carries a non-empty label id — when label resolution fails and yields the
empty sentinel, the orchestrator skips the mutation for that message. -/
theorem claim_no_mutation_with_empty_label (env : Env) (s0 : GmailState)
    (a b : String)
    (hin : Effect.modifyCall a b ∈ (Main.main env s0).trace) : b ≠ "" := by
  unfold Main.main at hin
  dsimp only at hin
  split at hin
  · dsimp only at hin
    rcases List.mem_append.1 hin with h2 | h2
    · rcases List.mem_append.1 h2 with h3 | h3
      · simp at h3
      · exact absurd h3 (fetch_no_modifyCall env s0 a b)
    · simp at h2
  · split at hin
    · refine runMsgs_modifyCall env _ s0 _ (fun a2 b2 hin2 => ?_) a b hin
      rcases List.mem_append.1 hin2 with h2 | h2
      · rcases List.mem_append.1 h2 with h3 | h3
        · simp at h3
        · exact absurd h3 (fetch_no_modifyCall env s0 a2 b2)
      · simp at h2
    · dsimp only at hin
      rcases List.mem_append.1 hin with h2 | h2
      · refine runMsgs_modifyCall env _ s0 _ (fun a2 b2 hin2 => ?_) a b h2
        rcases List.mem_append.1 hin2 with h3 | h3
        · rcases List.mem_append.1 h3 with h4 | h4
          · simp at h4
          · exact absurd h4 (fetch_no_modifyCall env s0 a2 b2)
        · simp at h3
      · simp at h2

/-- Witness for C7: the successful concrete run attempts exactly one
mutation, with the non-empty resolved id `"L1"`. -/
theorem claim_no_mutation_with_empty_label_witness :
    Effect.modifyCall "m1" "L1" ∈ (Main.main envAllOk stateHello).trace ∧
      "L1" ≠ "" :=
  ⟨by decide, claim_no_mutation_with_empty_label envAllOk stateHello "m1" "L1"
    (by decide)⟩

/-! ### Claim C8 — failure isolation -/

/-- A mailbox whose first unread message has a body that is not valid
base64 (`"A"`: one data character, which `binascii` rejects) followed by a
perfectly fine unread message. -/
def stateBadThenGood : GmailState :=
  ⟨[], [⟨"m1", ⟨[], some "A"⟩, ["UNREAD"]⟩,
        ⟨"m2", ⟨[], some "SGVsbG8="⟩, ["UNREAD"]⟩]⟩

/-- C8 counterexample: with every service call succeeding, a base64
decoding failure in the extraction stage of the first message raises an
uncaught exception (`binascii.Error` is not an `HttpError`) that
terminates the whole run: the trace stops after the fetch report — the
second fetched message is never processed. -/
theorem counterex_decode_crash_aborts_run :
    (Main.main envAllOk stateBadThenGood).crashed = true ∧
    (Main.main envAllOk stateBadThenGood).trace =
      [Effect.print "main" "Starting email classification process...",
       Effect.print "main" "Found 2 unread emails. Processing..."] ∧
    (Main.main envAllOk stateBadThenGood).state = stateBadThenGood := by
  decide

/-- A failing `get_message_text` pinpoints a message of the current state
whose payload fails to decode. -/
lemma get_message_text_error (env : Env) (s : GmailState) (mid : String)
    (e : Unit) (h : Main.get_message_text env s mid = Except.error e) :
    ∃ m ∈ s.messages, Main.extractFromPayload m.payload = Except.error e := by
  unfold Main.get_message_text at h
  by_cases hg : env.getMsgErr mid = true
  · rw [if_pos hg] at h; exact absurd h (by simp)
  · rw [if_neg hg] at h
    cases hf : s.messages.find? (fun m => m.id = mid) with
    | none => rw [hf] at h; exact absurd h (by simp)
    | some m =>
      rw [hf] at h
      exact ⟨m, List.mem_of_find?_eq_some hf, h⟩

/-- When every message of the current state decodes, a message step cannot
raise. -/
lemma stepMessage_ok (env : Env) (s : GmailState) (tr : List Effect)
    (mid : String)
    (h : ∀ m ∈ s.messages, Main.extractFromPayload m.payload ≠ Except.error ()) :
    ∃ p, Main.stepMessage env s tr mid = Except.ok p := by
  unfold Main.stepMessage
  cases hget : Main.get_message_text env s mid with
  | error e =>
    obtain ⟨m, hm, hx⟩ := get_message_text_error env s mid e hget
    exact absurd hx (h m hm)
  | ok text =>
    dsimp only
    by_cases ht : text = ""
    · exact ⟨_, by rw [if_pos ht]⟩
    · rw [if_neg ht]
      by_cases hl : (Main.get_or_create_label env s
          (Main.classify_email text
            (env.modelResp (Main.classifyPrompt text))).1).1 ≠ ""
      · exact ⟨_, by rw [if_pos hl]⟩
      · exact ⟨_, by rw [if_neg hl]⟩

/-- Label resolution never touches the messages. -/
lemma get_or_create_label_messages (env : Env) (s : GmailState) (n : String) :
    (Main.get_or_create_label env s n).2.1.messages = s.messages := by
  unfold Main.get_or_create_label
  by_cases hl : env.listLabelsErr = true
  · simp [hl]
  · rw [if_neg hl]
    cases hf : s.labels.find? (fun l => l.name = n) with
    | some l => simp
    | none => by_cases hc : env.createErr = true <;> simp [hc]

/-- A message step never changes any message's payload: every message of
the output state has the payload of a message of the input state. -/
lemma stepMessage_payloads (env : Env) (s : GmailState) (tr : List Effect)
    (mid : String) (s1 : GmailState) (tr1 : List Effect)
    (hstep : Main.stepMessage env s tr mid = Except.ok (s1, tr1)) :
    ∀ m1 ∈ s1.messages, ∃ m ∈ s.messages, m1.payload = m.payload := by
  unfold Main.stepMessage at hstep
  split at hstep
  · exact absurd hstep (by simp)
  · dsimp only at hstep
    split at hstep
    · injection hstep with h9
      injection h9 with h10 h11
      subst h10
      exact fun m1 hm1 => ⟨m1, hm1, rfl⟩
    · split at hstep
      · injection hstep with h9
        injection h9 with h10 h11
        unfold Main.apply_label at h10
        by_cases hm : env.modifyErr mid = true
        · rw [if_pos hm] at h10
          dsimp only at h10
          subst h10
          intro m1 hm1
          rw [get_or_create_label_messages] at hm1
          exact ⟨m1, hm1, rfl⟩
        · rw [if_neg hm] at h10
          dsimp only at h10
          subst h10
          intro m1 hm1
          unfold Main.modifyState at hm1
          dsimp only at hm1
          rw [get_or_create_label_messages] at hm1
          obtain ⟨m, hm2, hfe⟩ := List.mem_map.1 hm1
          refine ⟨m, hm2, ?_⟩
          rw [← hfe]
          by_cases hidm : m.id = mid <;> simp [hidm]
      · injection hstep with h9
        injection h9 with h10 h11
        subst h10
        exact fun m1 hm1 => ⟨m1, by
          rw [get_or_create_label_messages] at hm1; exact hm1, rfl⟩

/-- The message loop never crashes while every message body decodes. -/
lemma runMsgs_no_crash (env : Env) :
    ∀ (ids : List String) (s : GmailState) (tr : List Effect),
    (∀ m ∈ s.messages, Main.extractFromPayload m.payload ≠ Except.error ()) →
    (Main.runMsgs env s tr ids).crashed = false := by
  intro ids
  induction ids with
  | nil => intro s tr _; rfl
  | cons mid rest ih =>
    intro s tr h
    obtain ⟨⟨s1, tr1⟩, hp⟩ := stepMessage_ok env s tr mid h
    unfold Main.runMsgs
    rw [hp]
    refine ih s1 tr1 (fun m1 hm1 => ?_)
    obtain ⟨m, hm, hpe⟩ := stepMessage_payloads env s tr mid s1 tr1 hp m1 hm1
    rw [hpe]
    exact h m hm

/-- C8 (amended): in `main.py`, a service-call failure (`HttpError` or a
model exception, modelled by the environment) at any stage never
terminates the run — whenever every fetched body decodes, the run
completes with `crashed = false` under every environment; and a failure
of the fetch call substitutes the empty sequence, so the run ends
gracefully with the state untouched and only the diagnostics printed.
(A base64/UTF-8 decoding failure, by contrast, does terminate the run —
see the counterexample.) -/
theorem claim_stage_failure_isolation :
    (∀ (env : Env) (s0 : GmailState),
      (∀ m ∈ s0.messages,
        Main.extractFromPayload m.payload ≠ Except.error ()) →
      (Main.main env s0).crashed = false) ∧
    (∀ (env : Env) (s0 : GmailState), env.fetchErr = true →
      Main.main env s0 = ⟨s0,
        [Effect.print "main" "Starting email classification process...",
         Effect.print "fetch_unread_message_ids"
           "An error occurred while fetching messages",
         Effect.print "main" "No unread messages found."], false⟩) := by
  constructor
  · intro env s0 h
    unfold Main.main
    dsimp only
    split
    · rfl
    · split
      · rename_i hc
        rw [runMsgs_no_crash env (Main.fetch_unread_message_ids env s0).1
          s0 _ h] at hc
        exact absurd hc Bool.false_ne_true
      · rfl
  · intro env s0 hf
    unfold Main.main Main.fetch_unread_message_ids
    rw [if_pos hf]
    rfl

/-- Witness for C8: the all-success environment completes without a crash
on the decodable mailbox, and the same mailbox under a failing fetch ends
gracefully with the state untouched. -/
theorem claim_stage_failure_isolation_witness :
    ((∀ m ∈ stateHello.messages,
        Main.extractFromPayload m.payload ≠ Except.error ()) ∧
      (Main.main envAllOk stateHello).crashed = false) ∧
    (({ envAllOk with fetchErr := true } : Env).fetchErr = true ∧
      Main.main { envAllOk with fetchErr := true } stateHello = ⟨stateHello,
        [Effect.print "main" "Starting email classification process...",
         Effect.print "fetch_unread_message_ids"
           "An error occurred while fetching messages",
         Effect.print "main" "No unread messages found."], false⟩) :=
  ⟨⟨by decide, claim_stage_failure_isolation.1 envAllOk stateHello (by decide)⟩,
   ⟨rfl, claim_stage_failure_isolation.2 { envAllOk with fetchErr := true }
      stateHello rfl⟩⟩

/-! ### Claim C1 — terminal states of every processed message -/

/-- The ids of the labels of a directory whose name is one of the fixed
categories. -/
def categoryIds (dir : List Label) : List String :=
  (dir.filter (fun l => CATEGORIES.contains l.name)).map Label.id

/-- How many of a message's labels are category labels of the given
directory. -/
def categoryLabelCount (dir : List Label) (ls : List String) : Nat :=
  (ls.filter (fun x => (categoryIds dir).contains x)).length

/-- Behaviour of `get_or_create_label`: the messages are untouched, the
directory only grows (by at most the one created label), and a non-empty
result is the id of a directory label carrying the requested name. -/
lemma get_or_create_label_spec (env : Env) (s : GmailState) (name : String) :
    (Main.get_or_create_label env s name).2.1.messages = s.messages ∧
    s.labels <+: (Main.get_or_create_label env s name).2.1.labels ∧
    (∀ l ∈ (Main.get_or_create_label env s name).2.1.labels,
      l ∈ s.labels ∨ l = ⟨name, env.freshId name⟩) ∧
    ((Main.get_or_create_label env s name).1 = "" ∨
      (env.listLabelsErr = false ∧
        ∃ l ∈ (Main.get_or_create_label env s name).2.1.labels,
          l.name = name ∧ l.id = (Main.get_or_create_label env s name).1)) := by
  unfold Main.get_or_create_label
  by_cases hl : env.listLabelsErr = true
  · simp [hl]
    exact fun l2 h2 => Or.inl h2
  · rw [if_neg hl]
    rw [Bool.not_eq_true] at hl
    cases hf : s.labels.find? (fun l => l.name = name) with
    | some l =>
      have hmem := List.mem_of_find?_eq_some hf
      have hname := List.find?_some hf
      simp only [decide_eq_true_eq] at hname
      exact ⟨rfl, List.prefix_refl _, fun l2 h2 => Or.inl h2,
        Or.inr ⟨hl, l, hmem, hname, rfl⟩⟩
    | none =>
      by_cases hc : env.createErr = true
      · simp [hc]
        exact fun l2 h2 => Or.inl h2
      · rw [if_neg hc]
        refine ⟨rfl, ⟨[⟨name, env.freshId name⟩], rfl⟩, ?_, ?_⟩
        · intro l2 h2
          rcases List.mem_append.1 h2 with h3 | h3
          · exact Or.inl h3
          · exact Or.inr (List.mem_singleton.1 h3)
        · exact Or.inr ⟨hl, ⟨name, env.freshId name⟩,
            List.mem_append.2 (Or.inr (List.mem_singleton.2 rfl)), rfl, rfl⟩

/-- A non-empty text from `get_message_text` means the get call itself did
not fail. -/
lemma get_message_text_ok_nonempty (env : Env) (s : GmailState)
    (mid text : String) (h : Main.get_message_text env s mid = Except.ok text)
    (ht : text ≠ "") : env.getMsgErr mid = false := by
  by_cases hg : env.getMsgErr mid = true
  · unfold Main.get_message_text at h
    rw [if_pos hg] at h
    injection h with h2
    exact absurd h2.symm ht
  · exact Bool.eq_false_iff.2 hg

/-- Membership of the classifier result in `CATEGORIES`, in `Bool` form. -/
lemma classify_email_contains (text : String) (resp : Except Unit String) :
    CATEGORIES.contains (Main.classify_email text resp).1 = true :=
  List.elem_iff.2 (classify_email_mem text resp)

/-- Full state behaviour of one message step: the label directory only
grows, every new label is a created category label, and the messages are
either all untouched or rewritten by exactly one guarded mutation whose
label id is non-empty and names a category in the new directory. -/
lemma stepMessage_spec (env : Env) (s : GmailState) (tr : List Effect)
    (mid : String) (s1 : GmailState) (tr1 : List Effect)
    (hstep : Main.stepMessage env s tr mid = Except.ok (s1, tr1)) :
    s.labels <+: s1.labels ∧
    (∀ l ∈ s1.labels, l ∈ s.labels ∨
      ∃ n, CATEGORIES.contains n = true ∧ l = ⟨n, env.freshId n⟩) ∧
    (s1.messages = s.messages ∨
      (env.getMsgErr mid = false ∧ env.listLabelsErr = false ∧
        ∃ lid, lid ≠ "" ∧ lid ∈ categoryIds s1.labels ∧
          s1.messages = s.messages.map (fun m =>
            if m.id = mid then { m with labels := Main.applyMods m.labels lid }
            else m))) := by
  unfold Main.stepMessage at hstep
  split at hstep
  · exact absurd hstep (by simp)
  · rename_i text heq
    dsimp only at hstep
    split at hstep
    · injection hstep with h9
      injection h9 with h10 h11
      subst h10
      exact ⟨List.prefix_refl _, fun l h => Or.inl h, Or.inl rfl⟩
    · rename_i ht
      obtain ⟨hA, hB, hC, hD⟩ := get_or_create_label_spec env s
        (Main.classify_email text (env.modelResp (Main.classifyPrompt text))).1
      split at hstep
      · rename_i hl
        injection hstep with h9
        injection h9 with h10 h11
        have hger := get_message_text_ok_nonempty env s mid text heq ht
        rcases hD with hD | ⟨hlf, l, hlmem, hlname, hlid⟩
        · exact absurd hD hl
        unfold Main.apply_label at h10
        by_cases hm : env.modifyErr mid = true
        · rw [if_pos hm] at h10
          dsimp only at h10
          subst h10
          exact ⟨hB, fun l2 h2 => (hC l2 h2).imp id
              (fun h3 => ⟨_, classify_email_contains text _, h3⟩),
            Or.inl hA⟩
        · rw [if_neg hm] at h10
          dsimp only at h10
          subst h10
          refine ⟨hB, fun l2 h2 => (hC l2 h2).imp id
              (fun h3 => ⟨_, classify_email_contains text _, h3⟩), ?_⟩
          refine Or.inr ⟨hger, hlf, _, hl, ?_, ?_⟩
          · exact List.mem_map.2 ⟨l, List.mem_filter.2 ⟨hlmem, by
              rw [hlname]; exact classify_email_contains text _⟩, hlid⟩
          · show (Main.modifyState _ mid _).messages = _
            unfold Main.modifyState
            dsimp only
            rw [hA]
      · injection hstep with h9
        injection h9 with h10 h11
        subst h10
        exact ⟨hB, fun l2 h2 => (hC l2 h2).imp id
            (fun h3 => ⟨_, classify_email_contains text _, h3⟩),
          Or.inl hA⟩

/-- Invariant of the message loop relative to the start state `s0`:
`rem` are the fetched ids not yet processed.  The directory extends `s0`'s
with created category labels only; each message keeps its id and payload
and is either untouched or carries exactly one extra mutation by a
non-empty category label id (and a message still to be processed is
untouched). -/
def RunInv (env : Env) (s0 : GmailState) (rem : List String)
    (s : GmailState) : Prop :=
  s0.labels <+: s.labels ∧
  (∀ l ∈ s.labels, l ∈ s0.labels ∨
    ∃ n, CATEGORIES.contains n = true ∧ l = ⟨n, env.freshId n⟩) ∧
  s.messages.length = s0.messages.length ∧
  (∀ i (h0 : i < s0.messages.length) (h1 : i < s.messages.length),
    (s.messages.get ⟨i, h1⟩).id = (s0.messages.get ⟨i, h0⟩).id ∧
    (s.messages.get ⟨i, h1⟩).payload = (s0.messages.get ⟨i, h0⟩).payload ∧
    ((s.messages.get ⟨i, h1⟩).labels = (s0.messages.get ⟨i, h0⟩).labels ∨
      ((s0.messages.get ⟨i, h0⟩).id ∉ rem ∧
       env.getMsgErr (s0.messages.get ⟨i, h0⟩).id = false ∧
       env.listLabelsErr = false ∧
       ∃ lid, lid ≠ "" ∧ lid ∈ categoryIds s.labels ∧
         (s.messages.get ⟨i, h1⟩).labels =
           Main.applyMods (s0.messages.get ⟨i, h0⟩).labels lid)))

/-- The invariant holds at the start for any list of pending ids. -/
lemma RunInv_init (env : Env) (s0 : GmailState) (rem : List String) :
    RunInv env s0 rem s0 :=
  ⟨List.prefix_refl _, fun l h => Or.inl h, rfl,
    fun _ _ _ => ⟨rfl, rfl, Or.inl rfl⟩⟩

/-- Forgetting the pending ids only weakens the invariant. -/
lemma RunInv_weaken_nil (env : Env) (s0 : GmailState) (rem : List String)
    (s : GmailState) (h : RunInv env s0 rem s) : RunInv env s0 [] s := by
  obtain ⟨h1, h2, h3, h4⟩ := h
  refine ⟨h1, h2, h3, fun i h0 hl => ?_⟩
  obtain ⟨ha, hb, hc⟩ := h4 i h0 hl
  refine ⟨ha, hb, hc.imp id (fun h5 => ⟨List.not_mem_nil _, h5.2⟩)⟩

/-- Category-id membership is monotone along directory extension. -/
lemma categoryIds_mono (d1 d2 : List Label) (h : d1 <+: d2) (x : String)
    (hx : x ∈ categoryIds d1) : x ∈ categoryIds d2 :=
  ((h.sublist.filter _).map Label.id).subset hx

/-- One step preserves the invariant, discharging the processed id. -/
lemma RunInv_step (env : Env) (s0 : GmailState) (mid : String)
    (rest : List String) (s s1 : GmailState) (tr tr1 : List Effect)
    (hmid : mid ∉ rest)
    (hinv : RunInv env s0 (mid :: rest) s)
    (hstep : Main.stepMessage env s tr mid = Except.ok (s1, tr1)) :
    RunInv env s0 rest s1 := by
  obtain ⟨hpre, hprov, hlen, hmsgs⟩ := hinv
  obtain ⟨hpre1, hprov1, hcase⟩ := stepMessage_spec env s tr mid s1 tr1 hstep
  refine ⟨hpre.trans hpre1, ?_, ?_, ?_⟩
  · intro l hl
    rcases hprov1 l hl with h2 | h2
    · exact hprov l h2
    · exact Or.inr h2
  · rcases hcase with hc | ⟨_, _, _, _, _, hc⟩ <;> rw [hc] <;>
      simp [hlen]
  · intro i h0 h1
    rcases hcase with hc | ⟨hger, hlerr, lid, hne, hcat, hc⟩
    · have h1s : i < s.messages.length := by rw [← hc]; exact h1
      rw [List.get_of_eq hc ⟨i, h1⟩]
      obtain ⟨ha, hb, hcc⟩ := hmsgs i h0 h1s
      refine ⟨ha, hb, hcc.imp id (fun h5 =>
        ⟨fun hmem => h5.1 (List.mem_cons_of_mem mid hmem), h5.2.1, h5.2.2.1,
          ?_⟩)⟩
      obtain ⟨lid2, hn2, hm2, he2⟩ := h5.2.2.2
      exact ⟨lid2, hn2, categoryIds_mono _ _ hpre1 lid2 hm2, he2⟩
    · have h1s : i < s.messages.length := by
        rw [hc] at h1; simpa using h1
      have hget : s1.messages.get ⟨i, h1⟩ =
          (fun m => if m.id = mid then
            { m with labels := Main.applyMods m.labels lid } else m)
          (s.messages.get ⟨i, h1s⟩) := by
        rw [List.get_of_eq hc ⟨i, h1⟩, List.get_map]
      obtain ⟨ha, hb, hcc⟩ := hmsgs i h0 h1s
      by_cases hid : (s.messages.get ⟨i, h1s⟩).id = mid
      · have hsid : (s0.messages.get ⟨i, h0⟩).id = mid := by rw [← ha, hid]
        have hlabeq : (s.messages.get ⟨i, h1s⟩).labels =
            (s0.messages.get ⟨i, h0⟩).labels := by
          rcases hcc with h5 | h5
          · exact h5
          · exact absurd (by rw [hsid]; exact List.mem_cons_self _ _) h5.1
        rw [hget]
        dsimp only
        rw [if_pos hid]
        refine ⟨ha, hb, Or.inr ⟨?_, ?_, hlerr, lid, hne, hcat, ?_⟩⟩
        · rw [hsid]; exact hmid
        · rw [hsid]; exact hger
        · show Main.applyMods (s.messages.get ⟨i, h1s⟩).labels lid = _
          rw [hlabeq]
      · rw [hget]
        dsimp only
        rw [if_neg hid]
        refine ⟨ha, hb, hcc.imp id (fun h5 =>
          ⟨fun hmem => h5.1 (List.mem_cons_of_mem mid hmem), h5.2.1,
            h5.2.2.1, ?_⟩)⟩
        obtain ⟨lid2, hn2, hm2, he2⟩ := h5.2.2.2
        exact ⟨lid2, hn2, categoryIds_mono _ _ hpre1 lid2 hm2, he2⟩

/-- The message loop carries the invariant from the pending ids down to
none, whether or not it crashes on the way. -/
lemma runMsgs_RunInv (env : Env) (s0 : GmailState) :
    ∀ (ids : List String) (s : GmailState) (tr : List Effect),
    ids.Nodup → RunInv env s0 ids s →
    RunInv env s0 [] (Main.runMsgs env s tr ids).state := by
  intro ids
  induction ids with
  | nil => intro s tr _ hinv; exact hinv
  | cons mid rest ih =>
    intro s tr hnd hinv
    obtain ⟨hmid, hnd2⟩ := List.nodup_cons.1 hnd
    unfold Main.runMsgs
    cases hstep : Main.stepMessage env s tr mid with
    | error e => exact RunInv_weaken_nil env s0 _ s hinv
    | ok p =>
      exact ih p.1 p.2 hnd2 (RunInv_step env s0 mid rest s p.1 tr p.2 hmid
        hinv (by rw [hstep]))

/-- The fetched identifiers inherit distinctness from the mailbox. -/
lemma fetch_nodup (env : Env) (s0 : GmailState)
    (hnd : (s0.messages.map Message.id).Nodup) :
    (Main.fetch_unread_message_ids env s0).1.Nodup := by
  unfold Main.fetch_unread_message_ids
  by_cases hf : env.fetchErr = true
  · simp [hf]
  · rw [if_neg hf]
    refine List.Nodup.sublist ?_ hnd
    exact ((List.take_sublist _ _).map Message.id).trans
      ((List.filter_sublist _).map Message.id)

/-- Every run establishes the invariant at its final state. -/
lemma main_RunInv (env : Env) (s0 : GmailState)
    (hnd : (s0.messages.map Message.id).Nodup) :
    RunInv env s0 [] (Main.main env s0).state := by
  unfold Main.main
  dsimp only
  split
  · exact RunInv_init env s0 []
  · split
    · exact runMsgs_RunInv env s0 _ s0 _ (fetch_nodup env s0 hnd)
        (RunInv_init env s0 _)
    · exact runMsgs_RunInv env s0 _ s0 _ (fetch_nodup env s0 hnd)
        (RunInv_init env s0 _)

/-- C1: in every run (over any outcomes of the external calls), every
message of a well-formed mailbox ends in exactly one of two terminal
states: untouched (same labels, in particular still unread), or mutated
exactly once — unread flag cleared and exactly one category label added —
and whenever a pre-mutation stage fails for that message (its get call
errors, or label listing errors so resolution yields the sentinel), it is
untouched.  Well-formedness: message ids are distinct, no existing or
service-assigned label id is the reserved `"UNREAD"`, and the message does
not already carry a category label id or a to-be-assigned id. -/
theorem claim_run_message_terminal_states (env : Env) (s0 : GmailState)
    (hnodup : (s0.messages.map Message.id).Nodup)
    (hunread : ∀ l ∈ s0.labels, l.id ≠ "UNREAD")
    (hfreshU : ∀ n, env.freshId n ≠ "UNREAD")
    (m : Message) (hm : m ∈ s0.messages)
    (hnocat : ∀ l ∈ s0.labels, CATEGORIES.contains l.name = true →
      l.id ∉ m.labels)
    (hfreshm : ∀ n, env.freshId n ∉ m.labels) :
    ∃ m1 ∈ (Main.main env s0).state.messages,
      m1.id = m.id ∧ m1.payload = m.payload ∧
      (m1.labels = m.labels ∨
        ∃ lid, m1.labels = m.labels.filter (fun x => x ≠ "UNREAD") ++ [lid] ∧
          "UNREAD" ∉ m1.labels ∧
          categoryLabelCount (Main.main env s0).state.labels m1.labels = 1) ∧
      (env.getMsgErr m.id = true → m1.labels = m.labels) ∧
      (env.listLabelsErr = true → m1.labels = m.labels) := by
  obtain ⟨⟨i, hi⟩, hget⟩ := List.mem_iff_get.1 hm
  obtain ⟨hpre, hprov, hlen, hmsgs⟩ := main_RunInv env s0 hnodup
  have h1 : i < (Main.main env s0).state.messages.length := by
    rw [hlen]; exact hi
  obtain ⟨ha, hb, hcc⟩ := hmsgs i hi h1
  have hdisj : ∀ x ∈ categoryIds (Main.main env s0).state.labels,
      x ∉ m.labels ∧ x ≠ "UNREAD" := by
    intro x hx
    obtain ⟨l, hfl, hlid⟩ := List.mem_map.1 hx
    obtain ⟨hlmem, hcont⟩ := List.mem_filter.1 hfl
    rcases hprov l hlmem with hin | ⟨n, _, hfe⟩
    · exact hlid ▸ ⟨hnocat l hin hcont, hunread l hin⟩
    · rw [← hlid, hfe]
      exact ⟨hfreshm n, hfreshU n⟩
  refine ⟨(Main.main env s0).state.messages.get ⟨i, h1⟩,
    List.get_mem _ i h1, by rw [ha, hget], by rw [hb, hget], ?_, ?_, ?_⟩
  · rcases hcc with h5 | ⟨_, _, _, lid, hne, hcat, hlab⟩
    · exact Or.inl (by rw [h5, hget])
    · rw [hget] at hlab
      have hlm : lid ∉ m.labels := (hdisj lid hcat).1
      have hlu : lid ≠ "UNREAD" := (hdisj lid hcat).2
      have hkept : (m.labels.filter (fun x => x ≠ "UNREAD")).contains lid
          = false :=
        Bool.eq_false_iff.2 (fun h =>
          hlm (List.mem_of_mem_filter (List.elem_iff.1 h)))
      have hform : ((Main.main env s0).state.messages.get ⟨i, h1⟩).labels
          = m.labels.filter (fun x => x ≠ "UNREAD") ++ [lid] := by
        rw [hlab]
        unfold Main.applyMods
        simp only [hkept]
        rfl
      refine Or.inr ⟨lid, hform, ?_, ?_⟩
      · rw [hform]
        intro hu
        rcases List.mem_append.1 hu with h6 | h6
        · have := List.of_mem_filter h6
          simp at this
        · rw [List.mem_singleton.1 h6] at hlu
          exact hlu rfl
      · rw [hform]
        unfold categoryLabelCount
        rw [List.filter_append]
        have hnil : (m.labels.filter (fun x => x ≠ "UNREAD")).filter
            (fun x => (categoryIds (Main.main env s0).state.labels).contains x)
            = [] := by
          rw [List.filter_eq_nil]
          intro x hx hp
          exact (hdisj x (List.elem_iff.1 hp)).1 (List.mem_of_mem_filter hx)
        rw [hnil]
        have hct : (categoryIds (Main.main env s0).state.labels).contains lid
            = true := List.elem_iff.2 hcat
        rw [List.filter_singleton, hct]
        rfl
  · intro htrig
    rcases hcc with h5 | ⟨_, hge, _, _⟩
    · rw [h5, hget]
    · rw [hget] at hge
      rw [htrig] at hge
      exact absurd hge (by simp)
  · intro htrig
    rcases hcc with h5 | ⟨_, _, hle, _⟩
    · rw [h5, hget]
    · rw [htrig] at hle
      exact absurd hle (by simp)

/-- Witness for C1: the concrete run over the well-formed one-message
mailbox, whose message ends in the mutated terminal state. -/
theorem claim_run_message_terminal_states_witness :
    ((stateHello.messages.map Message.id).Nodup ∧
      (∀ l ∈ stateHello.labels, l.id ≠ "UNREAD") ∧
      (∀ n, envAllOk.freshId n ≠ "UNREAD") ∧
      msgHello ∈ stateHello.messages ∧
      (∀ l ∈ stateHello.labels, CATEGORIES.contains l.name = true →
        l.id ∉ msgHello.labels) ∧
      (∀ n, envAllOk.freshId n ∉ msgHello.labels)) ∧
    (∃ m1 ∈ (Main.main envAllOk stateHello).state.messages,
      m1.id = msgHello.id ∧ m1.payload = msgHello.payload ∧
      (m1.labels = msgHello.labels ∨
        ∃ lid, m1.labels =
            msgHello.labels.filter (fun x => x ≠ "UNREAD") ++ [lid] ∧
          "UNREAD" ∉ m1.labels ∧
          categoryLabelCount (Main.main envAllOk stateHello).state.labels
            m1.labels = 1) ∧
      (envAllOk.getMsgErr msgHello.id = true → m1.labels = msgHello.labels) ∧
      (envAllOk.listLabelsErr = true → m1.labels = msgHello.labels)) :=
  ⟨⟨by decide, by decide,
      fun n => show ("L9" : String) ≠ "UNREAD" by decide, by decide, by decide,
      fun n => show ("L9" : String) ∉ ["UNREAD"] by decide⟩,
    claim_run_message_terminal_states envAllOk stateHello (by decide)
      (by decide) (fun n => show ("L9" : String) ≠ "UNREAD" by decide)
      msgHello (by decide) (by decide)
      (fun n => show ("L9" : String) ∉ ["UNREAD"] by decide)⟩

end Tagging
